import Mathlib

/-!
Verification of the gmail-label-size-calculator aggregation pipeline.

This file gives a shallow embedding of the core of `calculator.py` and
`lib/message_fetcher.py`: the label accumulator fold, the bounded batch
scheduler, the pagination driver, snapshot load/create, and the printed
summary.  Remote services are modelled as explicit function parameters
(`list_page` for the paged message listing, `fetch` for per-id message
fetches, where the first argument of `fetch` is the index of the fetcher
instance servicing the call).  Python exceptions are modelled with
`Except`: a per-item fetch failure is `Except.error e`, and the `KeyError`
raised by `self.state.labels[label_id]` on an unknown label id is an
`Except.error label_id` of the fold.
-/

namespace GmailCalc

/-- `LabelData` from `calculator.py` (id, name, type, size, count; size and
count default to 0, as in `LabelData(label["id"], label["name"], label["type"])`). -/
structure LabelData where
  id : String
  name : String
  type : String
  size : Nat := 0
  count : Nat := 0
deriving DecidableEq

/-- `LabelData.is_relevant`: `self.count > 0 and self.type != "system"`. -/
def LabelData.is_relevant (l : LabelData) : Bool :=
  l.count > 0 && l.type != "system"

/-- The `labels` dict of the state: an insertion-ordered association list
keyed by label id, mirroring a Python `Dict[str, LabelData]`. -/
abbrev LabelMap : Type := List (String × LabelData)

/-- The key set of the labels dict. -/
def LabelMap.keys (m : LabelMap) : List String :=
  m.map Prod.fst

/-- The values view of the labels dict (`self.labels.values()`). -/
def LabelMap.values (m : LabelMap) : List LabelData :=
  m.map Prod.snd

/-- A message-list entry as returned by the paged listing: the code only
reads `message["id"]`. -/
structure MsgHeader where
  id : String
deriving DecidableEq

/-- A fetched message response.  The code reads
`message_response.get("sizeEstimate", 0)` and
`message_response.get("labelIds", [])`; the `.get` defaults are absorbed
into always-present fields. -/
structure Message where
  sizeEstimate : Nat := 0
  labelIds : List String := []
deriving DecidableEq

/-- One page of the remote listing: the code reads
`response.get("messages", [])` and `response.get("nextPageToken")`. -/
structure Page where
  messages : List MsgHeader := []
  nextPageToken : Option String := none
deriving DecidableEq

/-- The `State` dataclass of `calculator.py` (without the labels dict's
identity aliasing: values are immutable records here). -/
structure State where
  done : Bool
  labels : LabelMap
  message_per_page : Nat
  next_page_token : Option String := none
  messages_processed : Nat := 0
deriving DecidableEq

/-- `MESSAGE_FETCHING_CONCURRENCY = 25` in `calculator.py`. -/
def MESSAGE_FETCHING_CONCURRENCY : Nat := 25

/-- The per-label mutation `count += 1; size += size` applied to one
`LabelData` record. -/
def bump (size : Nat) (l : LabelData) : LabelData :=
  { l with count := l.count + 1, size := l.size + size }

/-- In-place update of the entry of `label_id` in the labels dict. -/
def adjust (size : Nat) (m : LabelMap) (label_id : String) : LabelMap :=
  m.map fun kv => if kv.1 = label_id then (kv.1, bump size kv.2) else kv

/-- One step of the inner accumulation loop:
`self.state.labels[label_id].count += 1; self.state.labels[label_id].size += size`.
Looking up an absent key raises `KeyError` in Python, modelled as
`Except.error label_id`. -/
def applyLabelId (size : Nat) (m : LabelMap) (label_id : String) :
    Except String LabelMap :=
  if label_id ∈ m.keys then
    Except.ok (adjust size m label_id)
  else
    Except.error label_id

/-- Folding one fetched message into the accumulator: the body of
`for message_response in message_responses` in
`Calculator.gen_stat_for_messages` (lines 155-159 of `calculator.py`). -/
def fold_message (m : LabelMap) (msg : Message) : Except String LabelMap :=
  msg.labelIds.foldlM (applyLabelId msg.sizeEstimate) m

/-- Folding a list of fetched messages in order, as the
`for message_response in message_responses` loop does. -/
def fold_messages (m : LabelMap) (msgs : List Message) : Except String LabelMap :=
  msgs.foldlM fold_message m

/-- Errors escaping `Calculator.gen_stat_for_messages`: a per-item fetch
error propagated by `asyncio.gather`, or the `KeyError` of an unknown
label id. -/
inductive StatError (ε : Type) where
  | fetch : ε → StatError ε
  | keyError : String → StatError ε
deriving DecidableEq

/-- `Calculator.gen_stat_for_messages` (lines 136-159 of `calculator.py`):
slice `remaining` into batches of `MESSAGE_FETCHING_CONCURRENCY`, gather
one fetch per batch slot (`self.message_fetchers[i].gen_message(current_batch[i]["id"])`
for `i in range(min(len(current_batch), MESSAGE_FETCHING_CONCURRENCY))`,
which covers exactly the batch since `current_batch = remaining[:pool]`),
then fold every response of the batch before slicing the next batch.
`asyncio.gather` without `return_exceptions` propagates a raised
exception, modelled by the `Except` short-circuit of `mapM`. -/
def gen_stat_for_messages {ε : Type} (fetch : Nat → String → Except ε Message) :
    List MsgHeader → LabelMap → Except (StatError ε) LabelMap
  | [], labels => Except.ok labels
  | r :: rs, labels =>
    let current_batch := (r :: rs).take MESSAGE_FETCHING_CONCURRENCY
    let remaining := (r :: rs).drop MESSAGE_FETCHING_CONCURRENCY
    match current_batch.enum.mapM (fun ih => fetch ih.1 ih.2.id) with
    | Except.error e => Except.error (StatError.fetch e)
    | Except.ok message_responses =>
      match fold_messages labels message_responses with
      | Except.error label_id => Except.error (StatError.keyError label_id)
      | Except.ok labels' => gen_stat_for_messages fetch remaining labels'
termination_by l _ => l.length
decreasing_by
  simp only [List.length_drop, List.length_cons, MESSAGE_FETCHING_CONCURRENCY]
  omega

/-- `BatchedMessageFetcher.fetch_messages` (lines 34-54 of
`lib/message_fetcher.py`): same batching loop, but it only collects the
fetched messages (`messages += message_responses`) and does no folding.
`pool_size = 0` would loop forever in the source; the positivity witness
`hp` records that the loop is only run with a positive pool. -/
def fetch_messages {ε : Type} (fetch : Nat → String → Except ε Message)
    (pool_size : Nat) (hp : 1 ≤ pool_size) :
    List MsgHeader → List Message → Except ε (List Message)
  | [], messages => Except.ok messages
  | r :: rs, messages =>
    let current_batch := (r :: rs).take pool_size
    let remaining := (r :: rs).drop pool_size
    match current_batch.enum.mapM (fun ih => fetch ih.1 ih.2.id) with
    | Except.error e => Except.error e
    | Except.ok message_responses =>
      fetch_messages fetch pool_size hp remaining (messages ++ message_responses)
termination_by l _ => l.length
decreasing_by
  simp only [List.length_drop, List.length_cons, MESSAGE_FETCHING_CONCURRENCY]
  omega

/-- The batch decomposition performed by the slicing loop
(`current_batch = remaining[:pool]; remaining = remaining[pool:]`) of
`fetch_messages` / `gen_stat_for_messages`. -/
def fetch_chunks {α : Type} (pool_size : Nat) (hp : 1 ≤ pool_size) :
    List α → List (List α)
  | [] => []
  | r :: rs => ((r :: rs).take pool_size) :: fetch_chunks pool_size hp ((r :: rs).drop pool_size)
termination_by l => l.length
decreasing_by
  simp only [List.length_drop, List.length_cons, MESSAGE_FETCHING_CONCURRENCY]
  omega

/-- Observable events of the pagination driver `Calculator.gen_stat`:
issuing a page request with the stored cursor, and folding the message
list of a processed page. -/
inductive Event where
  | request : Option String → Event
  | folded : List MsgHeader → Event
deriving DecidableEq

/-- Outcome of a `gen_stat` run: normal return with final state and the
trace of events, an escaped exception, or exhaustion of the step fuel
(the source loop has no bound of its own). -/
inductive RunResult (ε : Type) where
  | ok : State → List Event → RunResult ε
  | error : StatError ε → RunResult ε
  | outOfFuel : RunResult ε
deriving DecidableEq

/-- `Calculator.gen_stat` (lines 161-195 of `calculator.py`).  Since
`prev_request` is never assigned in the `if prev_request is None` branch,
the `list_next` branch is dead code and every iteration issues
`message_service.list(..., pageToken=self.state.next_page_token)`;
the listing service is therefore modelled as a function of the page
token.  The loop body: read `nextPageToken`; break if it equals the
stored token; read `messages`; break if empty; fold the page, add
`len(messages)` to `messages_processed`, store the new token, save;
after the loop set `done = True` and save. -/
def gen_stat {ε : Type} (list_page : Option String → Page)
    (fetch : Nat → String → Except ε Message) :
    Nat → State → RunResult ε
  | 0, _ => RunResult.outOfFuel
  | fuel + 1, state =>
    let response := list_page state.next_page_token
    let next_page_token := response.nextPageToken
    if next_page_token = state.next_page_token then
      RunResult.ok { state with done := true } [Event.request state.next_page_token]
    else
      let messages := response.messages
      if messages = [] then
        RunResult.ok { state with done := true } [Event.request state.next_page_token]
      else
        match gen_stat_for_messages fetch messages state.labels with
        | Except.error e => RunResult.error e
        | Except.ok labels' =>
          match gen_stat list_page fetch fuel
              { state with
                labels := labels',
                messages_processed := state.messages_processed + messages.length,
                next_page_token := next_page_token } with
          | RunResult.ok final tr =>
            RunResult.ok final (Event.request state.next_page_token :: Event.folded messages :: tr)
          | RunResult.error e => RunResult.error e
          | RunResult.outOfFuel => RunResult.outOfFuel

/-- `Calculator.load_or_create` (lines 97-118 of `calculator.py`): if the
snapshot file exists, the pickled state is used verbatim (a differing
`message_per_page` argument is only warned about); otherwise a fresh
`State(done=False, labels={}, message_per_page=message_per_page)` is
created, whose dataclass defaults fill in `next_page_token=None` and
`messages_processed=0`. -/
def load_or_create (snapshot : Option State) (message_per_page : Nat) : State :=
  match snapshot with
  | some state => state
  | none => { done := false, labels := [], message_per_page := message_per_page }

/-- `State.print_stat` (lines 74-80 of `calculator.py`), as the list of
labels it prints in order: filter `self.labels.values()` by
`is_relevant`, then sort ascending by `label_data.size` (Python `sorted`
is a stable merge sort). -/
def print_stat (state : State) : List LabelData :=
  (state.labels.values.filter (fun label => label.is_relevant)).mergeSort
    (fun a b => a.size ≤ b.size)

/-- `Calculator.save` (lines 120-123 of `calculator.py`) writes the pickle
directly over the snapshot path: `open(self.snapshot, "wb")` truncates the
file in place, then `pickle.dump` writes the new bytes.  These are the
file contents observable at the successive points of a save (before the
open, after the truncating open, after the dump). -/
def save_file_states (old_bytes new_bytes : List Nat) : List (List Nat) :=
  [old_bytes, [], new_bytes]

/-- Atomicity from a reader's perspective: every observable file content
during a save is either the complete previous snapshot or the complete
new one. -/
def save_is_atomic (old_bytes new_bytes : List Nat) : Prop :=
  ∀ s ∈ save_file_states old_bytes new_bytes, s = old_bytes ∨ s = new_bytes

instance (old_bytes new_bytes : List Nat) :
    Decidable (save_is_atomic old_bytes new_bytes) := by
  unfold save_is_atomic
  infer_instance

/-- The crash-free result of folding one message: the labels dict with the
entry of every occurrence of a label id in `labelIds` bumped. -/
def fold_message_pure (m : LabelMap) (msg : Message) : LabelMap :=
  msg.labelIds.foldl (adjust msg.sizeEstimate) m

/-- The crash-free result of folding a list of messages in order. -/
def fold_messages_pure (m : LabelMap) (msgs : List Message) : LabelMap :=
  msgs.foldl fold_message_pure m

/-- `n` applications of `bump size`: `count += n; size += n * size`. -/
def bumpN (n size : Nat) (l : LabelData) : LabelData :=
  { l with count := l.count + n, size := l.size + n * size }

/-- Total number of message headers folded along a `gen_stat` trace. -/
def folded_total (tr : List Event) : Nat :=
  (tr.map fun e =>
    match e with
    | Event.folded ms => ms.length
    | Event.request _ => 0).sum

/-- The (fetcher index, message id) pairs dispatched concurrently for one
batch: `self.message_fetchers[i].gen_message(current_batch[i]["id"])` for
`i in range(min(len(current_batch), pool_size))`, which enumerates the
whole batch. -/
def chunk_dispatch (chunk : List MsgHeader) : List (Nat × String) :=
  chunk.enum.map fun ih => (ih.1, ih.2.id)

/-- Lengths of the successive batches cut from a list of the given
length (second argument), computed with explicit fuel (first argument)
so it evaluates structurally; with fuel at least the length and a
positive pool the fuel never runs out. -/
def chunk_lengths (pool_size : Nat) : Nat → Nat → List Nat
  | 0, _ => []
  | _, 0 => []
  | fuel + 1, n + 1 => min pool_size (n + 1) :: chunk_lengths pool_size fuel (n + 1 - pool_size)

/-- Scenario A label catalog: `{L1: user, L2: system}`, freshly fetched
(size and count zero). -/
def scenario_a_catalog : LabelMap :=
  [("L1", { id := "L1", name := "L1", type := "user" }),
   ("L2", { id := "L2", name := "L2", type := "system" })]

/-- Scenario A item A: labels `[L1]`, size 100. -/
def item_a : Message := { sizeEstimate := 100, labelIds := ["L1"] }

/-- Scenario A item B: labels `[L1, L2]`, size 50. -/
def item_b : Message := { sizeEstimate := 50, labelIds := ["L1", "L2"] }

/-- Scenario A expected totals: L1 = (count 2, size 150),
L2 = (count 1, size 50). -/
def scenario_a_result : LabelMap :=
  [("L1", { id := "L1", name := "L1", type := "user", size := 150, count := 2 }),
   ("L2", { id := "L2", name := "L2", type := "system", size := 50, count := 1 })]

/-- A fetcher that fails on message id `"b"` and succeeds elsewhere:
the concrete single-item failure of claim C2. -/
def fetch_one_failing : Nat → String → Except String Message := fun _ id =>
  if id = "b" then Except.error "boom"
  else Except.ok { sizeEstimate := 10, labelIds := ["L1"] }

/-- A listing service whose next-page token never advances (it always
returns no token) while still returning items: triggers the stall break
of `gen_stat` with a non-empty page. -/
def svc_stall : Option String → Page := fun _ =>
  { messages := [{ id := "m1" }], nextPageToken := none }

/-- A listing service that returns an empty page with a fresh token:
triggers the empty-page break of `gen_stat`. -/
def svc_empty : Option String → Page := fun _ =>
  { messages := [], nextPageToken := some "t" }

/-- Seven message headers: the concrete batch of Scenario C. -/
def ids7 : List MsgHeader :=
  [{ id := "1" }, { id := "2" }, { id := "3" }, { id := "4" },
   { id := "5" }, { id := "6" }, { id := "7" }]

/-! ## Lemmas about the per-label fold -/

theorem adjust_keys (size : Nat) (m : LabelMap) (label_id : String) :
    (adjust size m label_id).keys = m.keys := by
  induction m with
  | nil => rfl
  | cons kv rest ih =>
    simp only [adjust, List.map_cons, LabelMap.keys] at ih ⊢
    by_cases h : kv.1 = label_id <;> simp [h, ih]

theorem foldl_adjust_keys (size : Nat) :
    ∀ (ids : List String) (m : LabelMap), (ids.foldl (adjust size) m).keys = m.keys := by
  intro ids
  induction ids with
  | nil => intro m; rfl
  | cons a as ih =>
    intro m
    rw [List.foldl_cons, ih, adjust_keys]

theorem fold_message_pure_keys (m : LabelMap) (msg : Message) :
    (fold_message_pure m msg).keys = m.keys :=
  foldl_adjust_keys msg.sizeEstimate msg.labelIds m

theorem foldlM_apply_valid (size : Nat) :
    ∀ (ids : List String) (m : LabelMap), (∀ id ∈ ids, id ∈ m.keys) →
      ids.foldlM (applyLabelId size) m = Except.ok (ids.foldl (adjust size) m) := by
  intro ids
  induction ids with
  | nil => intro m _; rfl
  | cons a as ih =>
    intro m h
    have ha : a ∈ m.keys := h a (List.mem_cons_self a as)
    have has : ∀ id ∈ as, id ∈ (adjust size m a).keys := by
      intro id hid
      rw [adjust_keys]
      exact h id (List.mem_cons_of_mem a hid)
    simp only [List.foldlM_cons, applyLabelId, if_pos ha, List.foldl_cons]
    exact ih (adjust size m a) has

theorem foldlM_apply_ok_valid (size : Nat) :
    ∀ (ids : List String) (m m' : LabelMap),
      ids.foldlM (applyLabelId size) m = Except.ok m' → ∀ id ∈ ids, id ∈ m.keys := by
  intro ids
  induction ids with
  | nil => intro m m' _ id hid; simp at hid
  | cons a as ih =>
    intro m m' h id hid
    by_cases ha : a ∈ m.keys
    · rcases List.mem_cons.mp hid with hida | hida
      · exact hida ▸ ha
      · simp only [List.foldlM_cons, applyLabelId, if_pos ha] at h
        have := ih (adjust size m a) m' h id hida
        rwa [adjust_keys] at this
    · simp only [List.foldlM_cons, applyLabelId, if_neg ha] at h
      exact Except.noConfusion h

theorem fold_message_valid (m : LabelMap) (msg : Message)
    (h : ∀ id ∈ msg.labelIds, id ∈ m.keys) :
    fold_message m msg = Except.ok (fold_message_pure m msg) :=
  foldlM_apply_valid msg.sizeEstimate msg.labelIds m h

theorem fold_message_ok_valid (m m' : LabelMap) (msg : Message)
    (h : fold_message m msg = Except.ok m') : ∀ id ∈ msg.labelIds, id ∈ m.keys :=
  foldlM_apply_ok_valid msg.sizeEstimate msg.labelIds m m' h

theorem fold_messages_valid :
    ∀ (msgs : List Message) (m : LabelMap),
      (∀ msg ∈ msgs, ∀ id ∈ msg.labelIds, id ∈ m.keys) →
      fold_messages m msgs = Except.ok (fold_messages_pure m msgs) := by
  intro msgs
  induction msgs with
  | nil => intro m _; rfl
  | cons x xs ih =>
    intro m h
    have hx := h x (List.mem_cons_self x xs)
    have hrest : ∀ msg ∈ xs, ∀ id ∈ msg.labelIds, id ∈ (fold_message_pure m x).keys := by
      intro msg hmsg id hid
      rw [fold_message_pure_keys]
      exact h msg (List.mem_cons_of_mem x hmsg) id hid
    simp only [fold_messages, List.foldlM_cons, fold_message_valid m x hx]
    simpa [fold_messages_pure, fold_messages] using ih (fold_message_pure m x) hrest

theorem fold_messages_ok_valid :
    ∀ (msgs : List Message) (m out : LabelMap),
      fold_messages m msgs = Except.ok out →
      ∀ msg ∈ msgs, ∀ id ∈ msg.labelIds, id ∈ m.keys := by
  intro msgs
  induction msgs with
  | nil => intro m out _ msg hmsg; simp at hmsg
  | cons x xs ih =>
    intro m out h msg hmsg
    rcases hfx : fold_message m x with e | m1
    · simp only [fold_messages, List.foldlM_cons, hfx] at h
      exact Except.noConfusion h
    · rcases List.mem_cons.mp hmsg with hm | hm
      · exact hm ▸ fold_message_ok_valid m m1 x hfx
      · simp only [fold_messages, List.foldlM_cons, hfx] at h
        intro id hid
        have hx := fold_message_ok_valid m m1 x hfx
        have hm1 : m1 = fold_message_pure m x := by
          have := fold_message_valid m x hx
          rw [hfx] at this
          exact (Except.ok.injEq _ _).mp this.symm |>.symm
        have := ih m1 out h msg hm id hid
        rw [hm1, fold_message_pure_keys] at this
        exact this

theorem bumpN_zero (size : Nat) (l : LabelData) : bumpN 0 size l = l := by
  cases l
  simp [bumpN]

theorem bumpN_one (size : Nat) (l : LabelData) : bumpN 1 size l = bump size l := by
  cases l
  simp [bumpN, bump]

theorem bumpN_bump (n size : Nat) (l : LabelData) :
    bumpN n size (bump size l) = bumpN (n + 1) size l := by
  cases l
  simp only [bumpN, bump, Nat.succ_mul, LabelData.mk.injEq, true_and]
  omega

theorem bumpN_comm (n1 s1 n2 s2 : Nat) (l : LabelData) :
    bumpN n1 s1 (bumpN n2 s2 l) = bumpN n2 s2 (bumpN n1 s1 l) := by
  cases l
  simp only [bumpN, LabelData.mk.injEq, true_and]
  omega

theorem foldl_adjust_eq (size : Nat) :
    ∀ (ids : List String) (m : LabelMap),
      ids.foldl (adjust size) m =
        m.map fun kv => (kv.1, bumpN (ids.count kv.1) size kv.2) := by
  intro ids
  induction ids with
  | nil =>
    intro m
    simp only [List.foldl_nil, List.count_nil, bumpN_zero]
    exact (List.map_id'' (fun kv => rfl) m).symm
  | cons a as ih =>
    intro m
    rw [List.foldl_cons, ih, adjust, List.map_map]
    apply List.map_congr_left
    intro kv _
    simp only [Function.comp_apply, List.count_cons]
    by_cases h : kv.1 = a
    · subst h
      simp [bumpN_bump]
    · have hne : (a == kv.1) = false := by
        simp only [beq_eq_false_iff_ne]
        exact Ne.symm h
      simp [h, hne]

theorem fold_message_pure_eq (m : LabelMap) (msg : Message) :
    fold_message_pure m msg =
      m.map fun kv => (kv.1, bumpN (msg.labelIds.count kv.1) msg.sizeEstimate kv.2) :=
  foldl_adjust_eq msg.sizeEstimate msg.labelIds m

theorem fold_message_pure_comm (m : LabelMap) (msg1 msg2 : Message) :
    fold_message_pure (fold_message_pure m msg1) msg2 =
      fold_message_pure (fold_message_pure m msg2) msg1 := by
  rw [fold_message_pure_eq, fold_message_pure_eq, fold_message_pure_eq,
    fold_message_pure_eq, List.map_map, List.map_map]
  apply List.map_congr_left
  intro kv _
  simp only [Function.comp_apply, bumpN_comm]

theorem fold_messages_pure_perm {msgs msgs' : List Message}
    (h : msgs.Perm msgs') :
    ∀ m : LabelMap, fold_messages_pure m msgs = fold_messages_pure m msgs' := by
  induction h with
  | nil => intro m; rfl
  | cons x _ ih =>
    intro m
    simp only [fold_messages_pure, List.foldl_cons] at ih ⊢
    exact ih _
  | swap x y l =>
    intro m
    simp only [fold_messages_pure, List.foldl_cons]
    rw [fold_message_pure_comm]
  | trans _ _ ih1 ih2 =>
    intro m
    exact (ih1 m).trans (ih2 m)

/-! ## Lemmas about the pagination driver -/

theorem gen_stat_stop {ε : Type} (list_page : Option String → Page)
    (fetch : Nat → String → Except ε Message) (fuel : Nat) (state : State)
    (h : (list_page state.next_page_token).nextPageToken = state.next_page_token ∨
         (list_page state.next_page_token).messages = []) :
    gen_stat list_page fetch (fuel + 1) state =
      RunResult.ok { state with done := true } [Event.request state.next_page_token] := by
  rcases h with h | h
  · simp [gen_stat, h]
  · by_cases h2 : (list_page state.next_page_token).nextPageToken = state.next_page_token
    · simp [gen_stat, h2]
    · simp [gen_stat, h2, h]

theorem gen_stat_processed {ε : Type} (list_page : Option String → Page)
    (fetch : Nat → String → Except ε Message) :
    ∀ (fuel : Nat) (state final : State) (tr : List Event),
      gen_stat list_page fetch fuel state = RunResult.ok final tr →
      final.messages_processed = state.messages_processed + folded_total tr := by
  intro fuel
  induction fuel with
  | zero =>
    intro state final tr h
    exact RunResult.noConfusion h
  | succ fuel ih =>
    intro state final tr h
    simp only [gen_stat] at h
    split at h
    · cases h
      simp [folded_total]
    · split at h
      · cases h
        simp [folded_total]
      · split at h
        · exact RunResult.noConfusion h
        · split at h
          · cases h
            rename_i labels' heq f' tr' heq2
            have := ih _ _ _ heq2
            simp only [folded_total, List.map_cons, List.sum_cons] at this ⊢
            simp only [this]
            omega
          · exact RunResult.noConfusion h
          · exact RunResult.noConfusion h

/-! ## Lemmas about the batch scheduler's chunking -/

theorem fetch_chunks_flatten {α : Type} (pool_size : Nat) (hp : 1 ≤ pool_size) :
    ∀ l : List α, (fetch_chunks pool_size hp l).flatten = l
  | [] => by simp [fetch_chunks]
  | r :: rs => by
    rw [fetch_chunks]
    simp only [List.flatten_cons,
      fetch_chunks_flatten pool_size hp ((r :: rs).drop pool_size)]
    exact List.take_append_drop pool_size (r :: rs)
termination_by l => l.length
decreasing_by
  simp only [List.length_drop, List.length_cons]
  omega

theorem fetch_chunks_sizes {α : Type} (pool_size : Nat) (hp : 1 ≤ pool_size) :
    ∀ l : List α, ∀ c ∈ fetch_chunks pool_size hp l,
      c.length ≤ pool_size ∧ c ≠ []
  | [] => by simp [fetch_chunks]
  | r :: rs => by
    intro c hc
    rw [fetch_chunks] at hc
    rcases List.mem_cons.mp hc with hc | hc
    · subst hc
      constructor
      · simp only [List.length_take]
        omega
      · simp [List.take_eq_nil_iff]
        omega
    · exact fetch_chunks_sizes pool_size hp ((r :: rs).drop pool_size) c hc
termination_by l => l.length
decreasing_by
  simp only [List.length_drop, List.length_cons]
  omega

theorem fetch_chunks_dropLast_full {α : Type} (pool_size : Nat) (hp : 1 ≤ pool_size) :
    ∀ l : List α, ∀ c ∈ (fetch_chunks pool_size hp l).dropLast,
      c.length = pool_size
  | [] => by simp [fetch_chunks]
  | r :: rs => by
    intro c hc
    rw [fetch_chunks] at hc
    rcases hdrop : fetch_chunks pool_size hp ((r :: rs).drop pool_size) with _ | ⟨c2, cs⟩
    · rw [hdrop] at hc
      simp at hc
    · rw [hdrop, List.dropLast_cons_of_ne_nil (by simp)] at hc
      rcases List.mem_cons.mp hc with hc | hc
      · subst hc
        have hne : (r :: rs).drop pool_size ≠ [] := by
          intro hnil
          rw [hnil] at hdrop
          simp [fetch_chunks] at hdrop
        have hlen : pool_size < (r :: rs).length := by
          by_contra hle
          exact hne (List.drop_eq_nil_of_le (by omega))
        simp only [List.length_take]
        omega
      · have := fetch_chunks_dropLast_full pool_size hp ((r :: rs).drop pool_size) c
        rw [hdrop] at this
        exact this hc
termination_by l => l.length
decreasing_by
  simp only [List.length_drop, List.length_cons]
  omega

theorem chunk_lengths_congr (pool_size : Nat) (hp : 1 ≤ pool_size) :
    ∀ n f1 f2, n ≤ f1 → n ≤ f2 →
      chunk_lengths pool_size f1 n = chunk_lengths pool_size f2 n := by
  intro n
  induction n using Nat.strong_induction_on with
  | _ n ih =>
    match n with
    | 0 =>
      intro f1 f2 _ _
      cases f1 <;> cases f2 <;> rfl
    | m + 1 =>
      intro f1 f2 h1 h2
      match f1, h1 with
      | g1 + 1, h1 =>
        match f2, h2 with
        | g2 + 1, h2 =>
          simp only [chunk_lengths]
          congr 1
          have hrec : m + 1 - pool_size < m + 1 := by omega
          exact ih _ hrec g1 g2 (by omega) (by omega)

theorem fetch_chunks_map_length {α : Type} (pool_size : Nat) (hp : 1 ≤ pool_size) :
    ∀ l : List α,
      (fetch_chunks pool_size hp l).map List.length =
        chunk_lengths pool_size l.length l.length
  | [] => by simp [fetch_chunks, chunk_lengths]
  | r :: rs => by
    rw [fetch_chunks]
    simp only [List.map_cons, List.length_cons,
      fetch_chunks_map_length pool_size hp ((r :: rs).drop pool_size)]
    simp only [chunk_lengths, List.length_drop, List.length_cons, List.length_take]
    congr 1
    exact chunk_lengths_congr pool_size hp (rs.length + 1 - pool_size) _ _
      (by omega) (by omega)
termination_by l => l.length
decreasing_by
  simp only [List.length_drop, List.length_cons]
  omega

theorem chunk_dispatch_fst (c : List MsgHeader) :
    (chunk_dispatch c).map Prod.fst = List.range c.length := by
  simp only [chunk_dispatch, List.map_map]
  exact List.enum_map_fst c

theorem chunk_dispatch_snd (c : List MsgHeader) :
    (chunk_dispatch c).map Prod.snd = c.map MsgHeader.id := by
  simp only [chunk_dispatch, List.map_map]
  have : (Prod.snd ∘ fun ih : Nat × MsgHeader => (ih.1, ih.2.id)) =
      MsgHeader.id ∘ Prod.snd := rfl
  rw [this, ← List.map_map]
  rw [List.enum_map_snd]

theorem fetch_messages_eq_chunks {ε : Type} (fetch : Nat → String → Except ε Message)
    (pool_size : Nat) (hp : 1 ≤ pool_size) :
    ∀ (headers : List MsgHeader) (acc : List Message),
      fetch_messages fetch pool_size hp headers acc =
        (fetch_chunks pool_size hp headers).foldlM
          (fun msgs chunk =>
            (chunk.enum.mapM (fun ih => fetch ih.1 ih.2.id)).map (msgs ++ ·))
          acc
  | [], acc => by
    simp only [fetch_messages, fetch_chunks, List.foldlM_nil]
    rfl
  | r :: rs, acc => by
    rw [fetch_messages, fetch_chunks]
    rcases hm : ((r :: rs).take pool_size).enum.mapM (fun ih => fetch ih.1 ih.2.id)
      with e | resp
    · simp only [hm, List.foldlM_cons, Except.map]
      rfl
    · simp only [hm, List.foldlM_cons, Except.map,
        fetch_messages_eq_chunks fetch pool_size hp ((r :: rs).drop pool_size)
          (acc ++ resp)]
      rfl
termination_by headers => headers.length
decreasing_by
  simp only [List.length_drop, List.length_cons]
  omega

/-! ## Claims -/

/-- C1: if a page request returns a next-page token equal to the current
stored token, or returns an empty list of items, `gen_stat` stops
immediately: the run's whole event trace is the single page request with
the stored cursor — the page's items are never folded and no further page
request is issued — and the final state is the input state with `done`
set. -/
theorem c1_stall_or_empty_stops {ε : Type} (list_page : Option String → Page)
    (fetch : Nat → String → Except ε Message) (fuel : Nat) (state : State)
    (h : (list_page state.next_page_token).nextPageToken = state.next_page_token ∨
         (list_page state.next_page_token).messages = []) :
    gen_stat list_page fetch (fuel + 1) state =
      RunResult.ok { state with done := true } [Event.request state.next_page_token] :=
  gen_stat_stop list_page fetch fuel state h

/-- Witness for C1: the stalling service triggers the stop at a concrete
state. -/
theorem c1_stall_or_empty_stops_witness :
    ((svc_stall (none : Option String)).nextPageToken = none ∨
      (svc_stall none).messages = []) ∧
    gen_stat svc_stall fetch_one_failing 4
        { done := false, labels := [], message_per_page := 10 } =
      RunResult.ok { done := true, labels := [], message_per_page := 10 }
        [Event.request none] :=
  ⟨Or.inl rfl,
    c1_stall_or_empty_stops svc_stall fetch_one_failing 3
      { done := false, labels := [], message_per_page := 10 } (Or.inl rfl)⟩

/-- C5: whenever `gen_stat` returns normally, the final
`messages_processed` equals the starting value plus the total length of
the pages folded along the trace (each processed page contributes exactly
its item count); a freshly created state starts the sum at zero. -/
theorem c5_processed_count_invariant {ε : Type} (list_page : Option String → Page)
    (fetch : Nat → String → Except ε Message) (fuel page_size : Nat)
    (state final : State) (tr : List Event)
    (h : gen_stat list_page fetch fuel state = RunResult.ok final tr) :
    final.messages_processed = state.messages_processed + folded_total tr ∧
    (load_or_create none page_size).messages_processed = 0 :=
  ⟨gen_stat_processed list_page fetch fuel state final tr h, rfl⟩

/-- Witness for C5 at a concrete terminating run. -/
theorem c5_processed_count_invariant_witness :
    gen_stat svc_stall fetch_one_failing 1
        { done := false, labels := [], message_per_page := 10 } =
      RunResult.ok { done := true, labels := [], message_per_page := 10 }
        [Event.request none] ∧
    (({ done := true, labels := [], message_per_page := 10 } : State).messages_processed =
      ({ done := false, labels := [], message_per_page := 10 } : State).messages_processed +
        folded_total [Event.request none] ∧
    (load_or_create none 10).messages_processed = 0) :=
  ⟨by decide,
    c5_processed_count_invariant svc_stall fetch_one_failing 1 10
      { done := false, labels := [], message_per_page := 10 }
      { done := true, labels := [], message_per_page := 10 }
      [Event.request none] (by decide)⟩

/-- C7 counterexample: a cursor stall (token does not advance, items
non-empty) and a genuine end-of-list (empty page, fresh token) produce
bit-for-bit identical run results — same final state (`done := true`,
nothing else changed) and same trace — so the persisted state does not
distinguish the two stop causes, contrary to the claim. -/
theorem c7_stall_vs_empty_cex :
    (svc_stall none).nextPageToken = (none : Option String) ∧
    (svc_stall none).messages ≠ [] ∧
    (svc_empty none).messages = [] ∧
    (svc_empty none).nextPageToken ≠ (none : Option String) ∧
    gen_stat svc_stall fetch_one_failing 5
        { done := false, labels := [], message_per_page := 10 } =
      gen_stat svc_empty fetch_one_failing 5
        { done := false, labels := [], message_per_page := 10 } := by
  decide

/-- C7 (amended): both stop causes — cursor stall and empty page — leave
the identical completion state: `done := true` with every other field
unchanged and the same single-request trace; the code does not mark a
stalled run differently from a completed one. -/
theorem c7_stall_and_empty_identical {ε : Type} (lp1 lp2 : Option String → Page)
    (f1 f2 : Nat → String → Except ε Message) (fuel1 fuel2 : Nat) (state : State)
    (hstall : (lp1 state.next_page_token).nextPageToken = state.next_page_token)
    (hempty : (lp2 state.next_page_token).messages = []) :
    gen_stat lp1 f1 (fuel1 + 1) state =
      RunResult.ok { state with done := true } [Event.request state.next_page_token] ∧
    gen_stat lp2 f2 (fuel2 + 1) state =
      RunResult.ok { state with done := true } [Event.request state.next_page_token] :=
  ⟨gen_stat_stop lp1 f1 fuel1 state (Or.inl hstall),
    gen_stat_stop lp2 f2 fuel2 state (Or.inr hempty)⟩

/-- Witness for the amended C7 at the two concrete services. -/
theorem c7_stall_and_empty_identical_witness :
    (svc_stall none).nextPageToken = (none : Option String) ∧
    (svc_empty none).messages = [] ∧
    (gen_stat svc_stall fetch_one_failing 3
        { done := false, labels := [], message_per_page := 10 } =
      RunResult.ok { done := true, labels := [], message_per_page := 10 }
        [Event.request none] ∧
    gen_stat svc_empty fetch_one_failing 8
        { done := false, labels := [], message_per_page := 10 } =
      RunResult.ok { done := true, labels := [], message_per_page := 10 }
        [Event.request none]) :=
  ⟨rfl, rfl,
    c7_stall_and_empty_identical svc_stall svc_empty fetch_one_failing
      fetch_one_failing 2 7 { done := false, labels := [], message_per_page := 10 }
      rfl rfl⟩

/-- C10: when a snapshot exists, `load_or_create` uses it verbatim — in
particular the snapshot's `message_per_page` survives and the supplied
value has no effect; when no snapshot exists, the fresh state has
`done = false`, empty labels, the supplied page size, no page token, and
zero messages processed. -/
theorem c10_load_or_create (st : State) (n : Nat) :
    load_or_create (some st) n = st ∧
    load_or_create none n =
      { done := false, labels := [], message_per_page := n,
        next_page_token := none, messages_processed := 0 } :=
  ⟨rfl, rfl⟩

/-- C6 counterexample: saving new snapshot bytes `[2]` over old bytes
`[1]` exposes the truncated intermediate file, which is neither the old
nor the new snapshot — the save is not atomic from a reader's
perspective, contrary to the claim. -/
theorem c6_save_not_atomic_cex : ¬ save_is_atomic [1] [2] := by
  decide

/-- C6 (amended): `Calculator.save` overwrites the snapshot in place
(`open(..., "wb")` truncates, then the pickle is written), so whenever the
old and new snapshots are non-empty a concurrent reader (or a crash
mid-save) can observe the truncated empty file, which is neither
snapshot: the save is not atomic. -/
theorem c6_save_overwrite_torn (old_bytes new_bytes : List Nat)
    (h1 : old_bytes ≠ []) (h2 : new_bytes ≠ []) :
    [] ∈ save_file_states old_bytes new_bytes ∧
    ¬ save_is_atomic old_bytes new_bytes := by
  refine ⟨by simp [save_file_states], ?_⟩
  intro h
  rcases h [] (by simp [save_file_states]) with h | h
  · exact h1 h.symm
  · exact h2 h.symm

/-- Witness for the amended C6 at concrete one-byte snapshots. -/
theorem c6_save_overwrite_torn_witness :
    ([1] : List Nat) ≠ [] ∧ ([2] : List Nat) ≠ [] ∧
    ([] ∈ save_file_states [1] [2] ∧ ¬ save_is_atomic [1] [2]) :=
  ⟨by decide, by decide, c6_save_overwrite_torn [1] [2] (by decide) (by decide)⟩

/-- C3: folding one fetched item whose label-id set is duplicate-free and
known to the catalog adds its size estimate and one count to exactly the
entries of those labels, leaving every other entry unchanged; and in
Scenario A the two items fold to L1 = (count 2, size 150),
L2 = (count 1, size 50). -/
theorem c3_fold_per_label (m : LabelMap) (msg : Message)
    (hnd : msg.labelIds.Nodup)
    (hall : ∀ id ∈ msg.labelIds, id ∈ m.keys) :
    fold_message m msg =
      Except.ok (m.map fun kv =>
        if kv.1 ∈ msg.labelIds then (kv.1, bump msg.sizeEstimate kv.2) else kv) ∧
    fold_messages scenario_a_catalog [item_a, item_b] =
      Except.ok scenario_a_result := by
  constructor
  · rw [fold_message_valid m msg hall, fold_message_pure_eq]
    apply congrArg
    apply List.map_congr_left
    intro kv _
    by_cases h : kv.1 ∈ msg.labelIds
    · rw [if_pos h, List.count_eq_one_of_mem hnd h, bumpN_one]
    · rw [if_neg h, List.count_eq_zero_of_not_mem h, bumpN_zero]
  · rfl

/-- Witness for C3 at item B of Scenario A. -/
theorem c3_fold_per_label_witness :
    item_b.labelIds.Nodup ∧
    (∀ id ∈ item_b.labelIds, id ∈ scenario_a_catalog.keys) ∧
    (fold_message scenario_a_catalog item_b =
      Except.ok (scenario_a_catalog.map fun kv =>
        if kv.1 ∈ item_b.labelIds then (kv.1, bump item_b.sizeEstimate kv.2) else kv) ∧
    fold_messages scenario_a_catalog [item_a, item_b] =
      Except.ok scenario_a_result) :=
  ⟨by decide, by decide,
    c3_fold_per_label scenario_a_catalog item_b (by decide) (by decide)⟩

/-- C9: if folding a page's fetched items succeeds with some final
per-label totals, then folding them in any permuted order succeeds with
exactly the same totals. -/
theorem c9_fold_order_irrelevant (m out : LabelMap) (msgs msgs' : List Message)
    (hperm : msgs.Perm msgs')
    (h : fold_messages m msgs = Except.ok out) :
    fold_messages m msgs' = Except.ok out := by
  have hvalid := fold_messages_ok_valid msgs m out h
  have hvalid' : ∀ msg ∈ msgs', ∀ id ∈ msg.labelIds, id ∈ m.keys := by
    intro msg hmsg
    exact hvalid msg (hperm.mem_iff.mpr hmsg)
  rw [fold_messages_valid msgs' m hvalid', ← fold_messages_pure_perm hperm m]
  rw [fold_messages_valid msgs m hvalid] at h
  exact h

/-- Witness for C9: swapping Scenario A's two items leaves the totals
unchanged. -/
theorem c9_fold_order_irrelevant_witness :
    [item_a, item_b].Perm [item_b, item_a] ∧
    fold_messages scenario_a_catalog [item_a, item_b] =
      Except.ok scenario_a_result ∧
    fold_messages scenario_a_catalog [item_b, item_a] =
      Except.ok scenario_a_result :=
  ⟨by decide, rfl,
    c9_fold_order_irrelevant scenario_a_catalog scenario_a_result
      [item_a, item_b] [item_b, item_a] (by decide) rfl⟩

/-- C2 counterexample: with a two-item batch whose second item's fetch
fails, the batch is aborted whole: `fetch_messages` returns the raw fetch
error (no other item's result is produced) and `gen_stat_for_messages`
lets it unwind past the scheduler boundary as an error, folding nothing —
contrary to the claim that a single failure does not abort the batch. -/
theorem c2_single_failure_aborts_cex :
    fetch_messages fetch_one_failing 3 (by decide)
        [{ id := "a" }, { id := "b" }] [] = Except.error "boom" ∧
    gen_stat_for_messages fetch_one_failing [{ id := "a" }, { id := "b" }]
        scenario_a_catalog = Except.error (StatError.fetch "boom") := by
  constructor
  · simp [fetch_messages, fetch_one_failing, List.enum, List.mapM, List.mapM.loop]
    rfl
  · simp [gen_stat_for_messages, fetch_one_failing, MESSAGE_FETCHING_CONCURRENCY,
      List.enum, List.mapM, List.mapM.loop]
    rfl

/-- C2 (amended): a single failing item fetch aborts its whole batch: for
a two-item batch where the first fetch succeeds and the second fails with
`e`, `gen_stat_for_messages` returns `error (fetch e)` without folding
anything, and `fetch_messages` (for any pool that fits the batch in one
chunk) returns `error e` with no collected results — the error unwinds
past the scheduler boundary instead of being isolated per item. -/
theorem c2_single_failure_aborts_batch {ε : Type}
    (fetch : Nat → String → Except ε Message) (e : ε)
    (ha hb : MsgHeader) (labels : LabelMap) (ma : Message)
    (h0 : fetch 0 ha.id = Except.ok ma)
    (h1 : fetch 1 hb.id = Except.error e) :
    gen_stat_for_messages fetch [ha, hb] labels =
      Except.error (StatError.fetch e) ∧
    ∀ (pool_size : Nat) (hp2 : 2 ≤ pool_size),
      fetch_messages fetch pool_size (Nat.le_of_succ_le hp2) [ha, hb] [] =
        Except.error e := by
  have henum : ([ha, hb] : List MsgHeader).enum = [(0, ha), (1, hb)] := by
    simp [List.enum, List.enumFrom]
  have hmapM : ([(0, ha), (1, hb)] : List (Nat × MsgHeader)).mapM
      (fun ih => fetch ih.1 ih.2.id) = Except.error e := by
    rw [List.mapM_cons, List.mapM_cons]
    simp only [h0, h1]
    rfl
  constructor
  · rw [gen_stat_for_messages]
    have ht : ([ha, hb] : List MsgHeader).take MESSAGE_FETCHING_CONCURRENCY =
        [ha, hb] :=
      List.take_of_length_le (by simp [MESSAGE_FETCHING_CONCURRENCY])
    simp only [ht, henum, hmapM]
  · intro pool_size hp2
    rw [fetch_messages]
    have ht : ([ha, hb] : List MsgHeader).take pool_size = [ha, hb] :=
      List.take_of_length_le (by simp; omega)
    simp only [ht, henum, hmapM]

/-- Witness for the amended C2 at the concrete failing fetcher. -/
theorem c2_single_failure_aborts_batch_witness :
    fetch_one_failing 0 "a" =
      Except.ok { sizeEstimate := 10, labelIds := ["L1"] } ∧
    fetch_one_failing 1 "b" = Except.error "boom" ∧
    (gen_stat_for_messages fetch_one_failing [{ id := "a" }, { id := "b" }]
        scenario_a_catalog = Except.error (StatError.fetch "boom") ∧
    ∀ (pool_size : Nat) (hp2 : 2 ≤ pool_size),
      fetch_messages fetch_one_failing pool_size (Nat.le_of_succ_le hp2)
        [{ id := "a" }, { id := "b" }] [] = Except.error "boom") :=
  ⟨rfl, rfl,
    c2_single_failure_aborts_batch fetch_one_failing "boom"
      { id := "a" } { id := "b" } scenario_a_catalog
      { sizeEstimate := 10, labelIds := ["L1"] } rfl rfl⟩

/-- C4: the batch scheduler's slicing partitions the ids into consecutive
chunks of size at most the pool (all full except possibly the last,
none empty), dispatches each chunk's items across pairwise-distinct
fetcher instances with indices below the pool size, completes each chunk
(one `gather`) before the next (`fetch_messages` is the chunk-by-chunk
fold), and cuts a batch of 7 ids with pool 3 into chunks of sizes
3, 3, 1. -/
theorem c4_chunking {ε : Type} (fetch : Nat → String → Except ε Message)
    (pool_size : Nat) (hp : 1 ≤ pool_size) (ids : List MsgHeader) :
    (fetch_chunks pool_size hp ids).flatten = ids ∧
    (∀ c ∈ fetch_chunks pool_size hp ids, c.length ≤ pool_size ∧ c ≠ []) ∧
    (∀ c ∈ (fetch_chunks pool_size hp ids).dropLast, c.length = pool_size) ∧
    (∀ c ∈ fetch_chunks pool_size hp ids,
      ((chunk_dispatch c).map Prod.fst).Nodup ∧
      (chunk_dispatch c).map Prod.snd = c.map MsgHeader.id ∧
      ∀ p ∈ chunk_dispatch c, p.1 < pool_size) ∧
    (∀ acc, fetch_messages fetch pool_size hp ids acc =
      (fetch_chunks pool_size hp ids).foldlM
        (fun msgs chunk =>
          (chunk.enum.mapM (fun ih => fetch ih.1 ih.2.id)).map (msgs ++ ·))
        acc) ∧
    (ids.length = 7 → pool_size = 3 →
      (fetch_chunks pool_size hp ids).map List.length = [3, 3, 1]) := by
  refine ⟨fetch_chunks_flatten pool_size hp ids,
    fetch_chunks_sizes pool_size hp ids,
    fetch_chunks_dropLast_full pool_size hp ids, ?_, ?_, ?_⟩
  · intro c hc
    refine ⟨?_, chunk_dispatch_snd c, ?_⟩
    · rw [chunk_dispatch_fst]
      exact List.nodup_range c.length
    · intro p hmem
      have hfst : p.1 ∈ (chunk_dispatch c).map Prod.fst :=
        List.mem_map_of_mem Prod.fst hmem
      rw [chunk_dispatch_fst] at hfst
      have hlt := List.mem_range.mp hfst
      have hle := (fetch_chunks_sizes pool_size hp ids c hc).1
      omega
  · intro acc
    exact fetch_messages_eq_chunks fetch pool_size hp ids acc
  · intro h7 h3
    subst h3
    rw [fetch_chunks_map_length 3 hp ids, h7]
    rfl

/-- Witness for C4 at Scenario C: 7 ids, pool size 3. -/
theorem c4_chunking_witness :
    1 ≤ 3 ∧
    ((fetch_chunks 3 (by decide) ids7).flatten = ids7 ∧
    (∀ c ∈ fetch_chunks 3 (by decide) ids7, c.length ≤ 3 ∧ c ≠ []) ∧
    (∀ c ∈ (fetch_chunks 3 (by decide) ids7).dropLast, c.length = 3) ∧
    (∀ c ∈ fetch_chunks 3 (by decide) ids7,
      ((chunk_dispatch c).map Prod.fst).Nodup ∧
      (chunk_dispatch c).map Prod.snd = c.map MsgHeader.id ∧
      ∀ p ∈ chunk_dispatch c, p.1 < 3) ∧
    (∀ acc, fetch_messages fetch_one_failing 3 (by decide) ids7 acc =
      (fetch_chunks 3 (by decide) ids7).foldlM
        (fun msgs chunk =>
          (chunk.enum.mapM (fun ih => fetch_one_failing ih.1 ih.2.id)).map
            (msgs ++ ·))
        acc) ∧
    (ids7.length = 7 → 3 = 3 →
      (fetch_chunks 3 (by decide) ids7).map List.length = [3, 3, 1])) :=
  ⟨by decide, c4_chunking fetch_one_failing 3 (by decide) ids7⟩

/-- C8: the printed summary contains exactly the labels with positive
count and non-system type, in ascending order of accumulated size; on
Scenario A's final totals only L1 is printed (L2 is filtered out as
system). -/
theorem c8_print_stat_filter_sort (state : State) :
    (∀ l, l ∈ print_stat state ↔
      l ∈ state.labels.values ∧ 0 < l.count ∧ l.type ≠ "system") ∧
    (print_stat state).Pairwise (fun a b => a.size ≤ b.size) ∧
    print_stat { done := true, labels := scenario_a_result, message_per_page := 2 } =
      [{ id := "L1", name := "L1", type := "user", size := 150, count := 2 }] := by
  refine ⟨?_, ?_, ?_⟩
  · intro l
    simp [print_stat, (List.mergeSort_perm _ _).mem_iff, List.mem_filter,
      LabelData.is_relevant, Bool.and_eq_true, decide_eq_true_eq, bne_iff_ne]
  · have hs := List.sorted_mergeSort
      (fun (a b c : LabelData) (hab : decide (a.size ≤ b.size) = true)
          (hbc : decide (b.size ≤ c.size) = true) =>
        decide_eq_true
          (Nat.le_trans (of_decide_eq_true hab) (of_decide_eq_true hbc)))
      (fun (a b : LabelData) => by
        simp only [Bool.or_eq_true, decide_eq_true_eq]
        omega)
      (state.labels.values.filter (fun label => label.is_relevant))
    exact hs.imp (fun hab => of_decide_eq_true hab)
  · simp [print_stat, LabelMap.values, scenario_a_result, LabelData.is_relevant,
      List.filter, List.mergeSort_singleton]

end GmailCalc
